import Mathlib

/-!
Verification of the Erbsland configuration-language conformance-test harness.

This file gives a shallow embedding of the harness's core Python modules
(`utilities/lib/value.py`, `utilities/lib/outcome_data.py`,
`utilities/lib/outcome_parser.py`, `utilities/lib/adapter_runner.py`, and
`conformance_test.py`) and proves or refutes the specified properties.

Modelling conventions:
* Python exceptions become an explicit `PyExc` error type and fallible code
  returns `Except PyExc _`.  The harness's own base exception class
  (`utilities/lib/error.py`, class `Error`) is represented by the
  `PyExc.errorExc` constructor; built-in exceptions (`ValueError`, `KeyError`,
  `IndexError`, `AttributeError`) get constructors of their own because
  `except Error:` clauses do not catch them.
* Python `float` values are modelled exactly: NaN and the two infinities are
  explicit tags and finite values are rationals, so arithmetic in the
  tolerance check is exact rather than IEEE-rounded.  `float(str)` is modelled
  on its documented decimal grammar (optional sign, `inf`/`infinity`/`nan`
  case-insensitively, or a decimal literal with optional fraction and
  exponent).
* Python `dict` objects become association lists with first-position-preserving
  overwrite, matching insertion-order semantics; `str.strip`, `str.lower` and
  `str.splitlines` are modelled for the ASCII inputs the harness handles.
-/

/-- The verdict tag of `utilities/lib/outcome.py` (`class Outcome`). -/
inductive Outcome where
  | PASS
  | FAIL
  | ERROR
deriving DecidableEq, Repr

/-- `str(member)` of the `Outcome` StrEnum. -/
def Outcome.str : Outcome → String
  | .PASS => "PASS"
  | .FAIL => "FAIL"
  | .ERROR => "ERROR"

/-- The closed error-class enumeration of `utilities/lib/error_class.py`.
The Python members `IO` and `Syntax` are spelled `IO_` and `Syntax_` here. -/
inductive ErrorClass where
  | IO_
  | Encoding
  | UnexpectedEnd
  | Character
  | Syntax_
  | LimitExceeded
  | NameConflict
  | Indentation
  | Unsupported
  | Signature
  | Access
  | Validation
  | Internal
deriving DecidableEq, Repr

/-- `str(member)` of the `ErrorClass` StrEnum (its value string). -/
def ErrorClass.str : ErrorClass → String
  | .IO_ => "IO"
  | .Encoding => "Encoding"
  | .UnexpectedEnd => "UnexpectedEnd"
  | .Character => "Character"
  | .Syntax_ => "Syntax"
  | .LimitExceeded => "LimitExceeded"
  | .NameConflict => "NameConflict"
  | .Indentation => "Indentation"
  | .Unsupported => "Unsupported"
  | .Signature => "Signature"
  | .Access => "Access"
  | .Validation => "Validation"
  | .Internal => "Internal"

/-- Python `str.lower()` (ASCII case folding). -/
def pyLower (s : String) : String :=
  String.mk (s.data.map Char.toLower)

/-- `parse_error_class` of `utilities/lib/error_class.py`: case-insensitive
lookup of an error-class name; `none` models the `ValueError` a missing
dictionary key raises there. -/
def parse_error_class (s : String) : Option ErrorClass :=
  match pyLower s with
  | "io" => some .IO_
  | "encoding" => some .Encoding
  | "unexpectedend" => some .UnexpectedEnd
  | "character" => some .Character
  | "syntax" => some .Syntax_
  | "limitexceeded" => some .LimitExceeded
  | "nameconflict" => some .NameConflict
  | "indentation" => some .Indentation
  | "unsupported" => some .Unsupported
  | "signature" => some .Signature
  | "access" => some .Access
  | "validation" => some .Validation
  | "internal" => some .Internal
  | _ => none

/-- `ComparisonStatus` of `utilities/lib/comparison_status.py`. -/
inductive ComparisonStatus where
  | PASS
  | PASS_WITH_ACCEPTED_DEVIATION
  | FAIL
deriving DecidableEq, Repr

/-- `ComparisonResult` of `utilities/lib/comparison_result.py`: a verdict, an
ordered list of difference strings, and an integer score (defaults:
`PASS`, `[]`, `0`). -/
structure ComparisonResult where
  status : ComparisonStatus
  differences : List String
  score : Int
deriving DecidableEq, Repr

/-- Python exceptions relevant to the harness.  `errorExc` is the harness's own
`Error` base class (modelled from the spec, `utilities/lib/error.py` not being
among the sources); the others are Python built-ins, which `except Error:`
clauses do not catch. -/
inductive PyExc where
  | errorExc (msg : String)
  | valueError (msg : String)
  | keyError (key : String)
  | indexError
  | attributeError
deriving DecidableEq, Repr

/-- Whether an exception is (a subclass of) the harness's `Error` class, i.e.
whether an `except Error:` clause catches it. -/
def PyExc.isErrorKind : PyExc → Bool
  | .errorExc _ => true
  | _ => false

/-- A Python `float` value, modelled exactly: NaN, signed infinity
(`pos = true` for `+inf`), or a finite value as an exact rational. -/
inductive PyFloat where
  | nan
  | inf (pos : Bool)
  | finite (q : ℚ)
deriving DecidableEq, Repr

/-- `math.isnan`. -/
def PyFloat.isNan : PyFloat → Bool
  | .nan => true
  | _ => false

/-- `math.isinf`. -/
def PyFloat.isInf : PyFloat → Bool
  | .inf _ => true
  | _ => false

/-- Python `>` on floats: NaN is incomparable to everything. -/
def PyFloat.gt : PyFloat → PyFloat → Bool
  | .nan, _ => false
  | _, .nan => false
  | .inf p, .inf q => p && !q
  | .inf p, .finite _ => p
  | .finite _, .inf q => !q
  | .finite x, .finite y => decide (y < x)

/-- Python `<` on floats. -/
def PyFloat.lt (a b : PyFloat) : Bool := PyFloat.gt b a

/-- True for the characters Python's `str.strip` / `\s` treat as whitespace
in the ASCII range. -/
def isPySpace (c : Char) : Bool :=
  c = ' ' || c = '\t' || c = '\n' || c = '\r' || c = '\x0b' || c = '\x0c'

/-- Python word character (`\w`) in the ASCII range. -/
def isWordChar (c : Char) : Bool :=
  c.isAlphanum || c = '_'

/-- Python `str.strip()` (ASCII whitespace). -/
def pyStrip (s : String) : String :=
  String.mk ((s.data.dropWhile isPySpace).reverse.dropWhile isPySpace |>.reverse)

/-- Split a character list at every occurrence of the separator character
(structural analogue of `str.split(sep)` for a one-character separator). -/
def splitOnChar (c : Char) : List Char → List (List Char)
  | [] => [[]]
  | x :: xs =>
    if x = c then [] :: splitOnChar c xs
    else
      match splitOnChar c xs with
      | h :: t => (x :: h) :: t
      | [] => [[x]]

/-- Python `str.splitlines()` restricted to `\n` separators: no trailing empty
line for a text ending in a newline, and no lines at all for the empty text. -/
def pySplitlines (text : String) : List String :=
  if text = "" then []
  else
    let parts := (splitOnChar '\n' text.data).map String.mk
    if parts.getLast? = some "" then parts.dropLast else parts

/-- Python `needle in haystack` substring containment. -/
def containsSubstr (haystack needle : String) : Bool :=
  haystack.data.tails.any (fun t => needle.data.isPrefixOf t)

/-- `str.join` / `str.intercalate` (structural). -/
def joinWith (sep : String) : List String → String
  | [] => ""
  | [x] => x
  | x :: xs => x ++ sep ++ joinWith sep xs

/-- Lexicographic code-point comparison of character lists (Python `<` on
strings). -/
def listLtChar : List Char → List Char → Bool
  | [], [] => false
  | [], _ :: _ => true
  | _ :: _, [] => false
  | a :: as, b :: bs =>
    if a.toNat < b.toNat then true
    else if b.toNat < a.toNat then false
    else listLtChar as bs

/-- Python `<` on strings. -/
def strLt (a b : String) : Bool := listLtChar a.data b.data

/-- Digit list to number: helper for the decimal part of `float(str)`. -/
def digitsToNat : List Char → Nat
  | [] => 0
  | c :: cs => (c.toNat - '0'.toNat) * 10 ^ cs.length + digitsToNat cs

/-- Exact rational value of a decimal literal with integer digits `ip`,
fraction digits `fp` and decimal exponent `e`. -/
def decimalToRat (neg : Bool) (ip fp : List Char) (e : Int) : ℚ :=
  let digitsVal : ℚ := (digitsToNat (ip ++ fp) : ℚ)
  let shift : Int := e - (fp.length : Int)
  let scaled : ℚ :=
    if 0 ≤ shift then digitsVal * (10 : ℚ) ^ shift.toNat
    else digitsVal / (10 : ℚ) ^ (-shift).toNat
  if neg then -scaled else scaled

/-- Parse an optional exponent suffix (the part after `e`/`E`). -/
def parseExpPart : List Char → Option Int
  | [] => none
  | cs =>
    let (neg, ds) :=
      match cs with
      | '+' :: t => (false, t)
      | '-' :: t => (true, t)
      | t => (false, t)
    if ds ≠ [] ∧ ds.all (·.isDigit) then
      some (if neg then -(digitsToNat ds : Int) else (digitsToNat ds : Int))
    else none

/-- Parse the decimal-literal case of `float(str)` (after the optional sign was
removed): `digits [. digits] [(e|E) [sign] digits]`, at least one digit. -/
def parseDecimal (neg : Bool) (cs : List Char) : Option PyFloat :=
  let splitE := splitOnChar 'e' cs
  let splitE2 := splitOnChar 'E' cs
  let (mantissa, expPart) :=
    match splitE with
    | [m, ex] => (m, some ex)
    | [_] =>
      match splitE2 with
      | [m, ex] => (m, some ex)
      | _ => (cs, none)
    | _ => (([] : List Char), some ([] : List Char))
  let expVal : Option Int :=
    match expPart with
    | none => some 0
    | some ex => parseExpPart ex
  match expVal with
  | none => none
  | some e =>
    match splitOnChar '.' mantissa with
    | [ipart] =>
      if ipart ≠ [] ∧ ipart.all (·.isDigit) then
        some (.finite (decimalToRat neg ipart [] e))
      else none
    | [ipart, fpart] =>
      if (ipart ++ fpart) ≠ [] ∧ ipart.all (·.isDigit) ∧
          fpart.all (·.isDigit) then
        some (.finite (decimalToRat neg ipart fpart e))
      else none
    | _ => none

/-- Model of Python's `float(str)` on its documented grammar: optional
whitespace and sign, then `inf`, `infinity` or `nan` case-insensitively, or a
decimal literal.  `none` models the `ValueError` raised for other strings.
Values are exact (no IEEE rounding); digit-group underscores are not
modelled. -/
def parsePyFloat (s : String) : Option PyFloat :=
  let cs := (pyStrip s).data
  let (neg, cs2) :=
    match cs with
    | '+' :: t => (false, t)
    | '-' :: t => (true, t)
    | t => (false, t)
  let low := String.mk (cs2.map Char.toLower)
  if low = "inf" ∨ low = "infinity" then some (.inf (!neg))
  else if low = "nan" then some .nan
  else parseDecimal neg cs2

/-- `Value.DEFAULT_REL_TOL` of `utilities/lib/value.py`. -/
def DEFAULT_REL_TOL : ℚ := 1 / 10 ^ 9

/-- `Value.DEFAULT_ABS_TOL` of `utilities/lib/value.py`. -/
def DEFAULT_ABS_TOL : ℚ := 1 / 10 ^ 10

/-- `Value.LARGE_THRESHOLD` of `utilities/lib/value.py`. -/
def LARGE_THRESHOLD : ℚ := 10 ^ 307

/-- `Value` of `utilities/lib/value.py`: a type tag and the raw value text. -/
structure Value where
  type : String
  value : String
deriving DecidableEq, Repr

/-- The difference message `f"Expected value {expected}, got {self}"`. -/
def valueDiffMsg (selfV expectedV : Value) : String :=
  "Expected value " ++ expectedV.value ++ ", got " ++ selfV.value

/-- The body of `Value._compare_float` after both texts parsed: `a` is the
actual (`self`) float, `b` the expected one; returns `""` on a match and the
difference message otherwise.  The branch structure follows the source:
expected-side NaN first, then one-sided infinities against the
`LARGE_THRESHOLD`, then both-infinite sign agreement, then the exact
relative/absolute tolerance check (on which an actual-side NaN fails because
every Python comparison involving NaN is false). -/
def compareFloatParsed (a b : PyFloat) (msg : String) : String :=
  if b.isNan then
    if !a.isNan then msg else ""
  else if a.isInf && !b.isInf then
    if (b.gt (.finite LARGE_THRESHOLD) && a.gt (.finite 0)) ||
        (b.lt (.finite (-LARGE_THRESHOLD)) && a.lt (.finite 0)) then ""
    else msg
  else if b.isInf && !a.isInf then
    if (a.gt (.finite LARGE_THRESHOLD) && b.gt (.finite 0)) ||
        (a.lt (.finite (-LARGE_THRESHOLD)) && b.lt (.finite 0)) then ""
    else msg
  else if a.isInf && b.isInf then
    if (a.gt (.finite 0) && b.gt (.finite 0)) ||
        (a.lt (.finite 0) && b.lt (.finite 0)) then ""
    else msg
  else
    match a, b with
    | .finite qa, .finite qb =>
      if |qa - qb| ≤ max (DEFAULT_REL_TOL * max |qa| |qb|) DEFAULT_ABS_TOL then ""
      else msg
    | _, _ => msg

/-- `Value._compare_float`: parse both texts with `float()`; a parse failure is
the `ValueError` branch returning the difference message. -/
def Value.compare_float (selfV expectedV : Value) : String :=
  match parsePyFloat selfV.value, parsePyFloat expectedV.value with
  | some a, some b => compareFloatParsed a b (valueDiffMsg selfV expectedV)
  | _, _ => valueDiffMsg selfV expectedV

/-- `Value.compare_with_expected`: exact type match required; non-`Float`
types compare by exact text equality; `Float` uses the float comparison. -/
def Value.compare_with_expected (selfV expectedV : Value) : String :=
  if selfV.type ≠ expectedV.type then
    "Expected type " ++ expectedV.type ++ ", got " ++ selfV.type
  else if selfV.type ≠ "Float" then
    if selfV.value ≠ expectedV.value then valueDiffMsg selfV expectedV else ""
  else
    Value.compare_float selfV expectedV

/-- First-match lookup in an association list, modelling `dict.__getitem__`
(`none` models the `KeyError`). -/
def dictGet (k : String) : List (String × Value) → Option Value
  | [] => none
  | (k', v) :: rest => if k' = k then some v else dictGet k rest

/-- `dict.__setitem__`: overwrite in place when the key exists, else append. -/
def dictSet (vs : List (String × Value)) (k : String) (v : Value) :
    List (String × Value) :=
  if k ∈ vs.map Prod.fst then
    vs.map (fun p => if p.1 = k then (p.1, v) else p)
  else vs ++ [(k, v)]

/-- Insert into a `≤`-sorted list of strings (stable: equal keys go after). -/
def insertSorted (x : String) : List String → List String
  | [] => [x]
  | y :: ys => if strLt x y then x :: y :: ys else y :: insertSorted x ys

/-- Python `sorted` on strings (insertion sort by code points). -/
def sortStrings : List String → List String
  | [] => []
  | x :: xs => insertSorted x (sortStrings xs)

/-- `OutcomeData` of `utilities/lib/outcome_data.py`: the verdict, the
error-class list and diagnostic message of a Fail outcome, and the name-path
value dictionary of a Pass outcome. -/
structure OutcomeData where
  status : Outcome
  error_classes : List ErrorClass
  error_message : String
  values : List (String × Value)
deriving DecidableEq, Repr

/-- `OutcomeData.ACCEPTED_SYNTAX_ERRORS`. -/
def ACCEPTED_SYNTAX_ERRORS : List ErrorClass :=
  [.UnexpectedEnd, .Character, .LimitExceeded, .Indentation, .Unsupported]

/-- `ignored_meta_names` of `OutcomeData.compare_with_expected`. -/
def ignored_meta_names : List String := ["@version", "@features"]

/-- The difference message of the error-class Fail branch. -/
def failClassesMsg (expectedClasses : List ErrorClass) (c : ErrorClass) : String :=
  "Error classes: expected one of " ++
    joinWith ", " (expectedClasses.map ErrorClass.str) ++
    ", got " ++ c.str

/-- The value-comparison loop of `OutcomeData.compare_with_expected` over the
sorted original-case keys: skips meta names, looks both dictionaries up with
the original-case key (a missing key is the `KeyError` the source would
raise), and collects one difference per mismatching value. -/
def valueLoop (selfVals expectedVals : List (String × Value)) :
    List String → Except PyExc (List String)
  | [] => .ok []
  | n :: ns =>
    if n ∈ ignored_meta_names then valueLoop selfVals expectedVals ns
    else
      match dictGet n selfVals with
      | none => .error (.keyError n)
      | some av =>
        match dictGet n expectedVals with
        | none => .error (.keyError n)
        | some ev =>
          let vr := av.compare_with_expected ev
          let here := if vr ≠ "" then
              ["Value '" ++ n ++ "' does not match: " ++ vr]
            else []
          (valueLoop selfVals expectedVals ns).map (fun rest => here ++ rest)

/-- `OutcomeData.compare_with_expected`: status mismatch first; for two Fail
outcomes the single-actual-class invariant (a violation is the source's
`ValueError`), class membership, and the fixed `Syntax`-for-subclass accepted
deviation (indexing `expected.error_classes[0]` is only reached when the
actual class is `Syntax`, and raises `IndexError` on an empty list); for two
Pass outcomes the case-folded, meta-key-excluded key-set comparison followed
by the value loop.  As in the source, the final line of the Pass path sets
`score = 10` unconditionally, even when a value mismatch set the status to
`FAIL`. -/
def OutcomeData.compare_with_expected (self expected : OutcomeData) :
    Except PyExc ComparisonResult :=
  if self.status ≠ expected.status then
    .ok ⟨.FAIL,
      ["Status: expected " ++ expected.status.str ++ ", got " ++ self.status.str],
      0⟩
  else if self.status = .FAIL then
    match self.error_classes with
    | [c] =>
      if c ∈ expected.error_classes then .ok ⟨.PASS, [], 10⟩
      else if c = .Syntax_ then
        match expected.error_classes with
        | [] => .error .indexError
        | e0 :: _ =>
          if e0 ∈ ACCEPTED_SYNTAX_ERRORS then
            .ok ⟨.PASS_WITH_ACCEPTED_DEVIATION,
              ["Expected error " ++ e0.str ++ " but got " ++ c.str ++
                ", which is also accepted."],
              8⟩
          else .ok ⟨.FAIL, [failClassesMsg expected.error_classes c], 0⟩
      else .ok ⟨.FAIL, [failClassesMsg expected.error_classes c], 0⟩
    | cs =>
      .error (.valueError ("Error classes: expected one, got " ++ toString cs.length))
  else
    let actualNames :=
      ((sortStrings (self.values.map Prod.fst)).filter
        (fun n => n ∉ ignored_meta_names)).map pyLower
    let expectedNames :=
      ((sortStrings (expected.values.map Prod.fst)).filter
        (fun n => n ∉ ignored_meta_names)).map pyLower
    let unexpectedDiffs :=
      (actualNames.filter (fun n => n ∉ expectedNames)).map
        (fun n => "Name path: Unexpected name-path '" ++ n ++ "'")
    let missingDiffs :=
      (expectedNames.filter (fun n => n ∉ actualNames)).map
        (fun n => "Name path: Missing name-path '" ++ n ++ "'")
    if unexpectedDiffs ++ missingDiffs ≠ [] then
      .ok ⟨.FAIL, unexpectedDiffs ++ missingDiffs, 0⟩
    else
      (valueLoop self.values expected.values
          (sortStrings (self.values.map Prod.fst))).map
        (fun diffs =>
          ⟨if diffs = [] then .PASS else .FAIL, diffs, 10⟩)

/-- `RE_FAIL_LINE` (`^FAIL\s*=\s*(.*)\s*$`, case-insensitive) applied with
`re.match` to an already-stripped line: a case-insensitive `FAIL` prefix,
optional whitespace, `=`, optional whitespace, and the rest as group 1. -/
def matchFailLine (line : String) : Option String :=
  let cs := line.data
  if (cs.take 4).map Char.toLower = "fail".data then
    match (cs.drop 4).dropWhile isPySpace with
    | '=' :: r2 => some (String.mk (r2.dropWhile isPySpace))
    | _ => none
  else none

/-- `RE_FAIL_ERROR` (`^(\w+)(?:\((.*)\))?$`): a nonempty word, optionally
followed by a parenthesized message running to the final `)`. -/
def matchFailError (tok : String) : Option (String × Option String) :=
  let cs := tok.data
  let w := cs.takeWhile isWordChar
  if w = [] then none
  else
    match cs.drop w.length with
    | [] => some (String.mk w, none)
    | '(' :: r2 =>
      if r2.getLast? = some ')' then some (String.mk w, some (String.mk r2.dropLast))
      else none
    | _ => none

/-- `RE_VALUE_LINE` (`^([^=]+)\s*=\s*(\w+)\((.*)\)\s*$`) applied with
`re.match` to an already-stripped line.  Group 1 is everything before the
first `=` (unstripped, so it keeps any spaces before the `=`); after the `=`
come optional whitespace, a nonempty word (the type), `(`, and group 3 runs
greedily to the last `)` that only trailing whitespace follows. -/
def matchValueLine (line : String) : Option (String × String × String) :=
  let cs := line.data
  let g1 := cs.takeWhile (fun c => c ≠ '=')
  if g1 = [] then none
  else
    match cs.drop g1.length with
    | '=' :: rest =>
      let r1 := rest.dropWhile isPySpace
      let w := r1.takeWhile isWordChar
      if w = [] then none
      else
        match r1.drop w.length with
        | '(' :: r2 =>
          let r2s := (r2.reverse.dropWhile isPySpace).reverse
          if r2s.getLast? = some ')' then
            some (String.mk g1, String.mk w, String.mk r2s.dropLast)
          else none
        | _ => none
    | _ => none

/-- The token loop of `parse_fail` over one `FAIL` line's `|`-separated class
tokens: empty tokens are skipped, a malformed or unknown token is a decode
error, a repeated class is a decode error, and a nonempty parenthesized
message replaces the diagnostic message. -/
def parseFailTokens (lineCount : Nat) :
    List String → List ErrorClass → String → Except PyExc (List ErrorClass × String)
  | [], acc, msg => .ok (acc, msg)
  | t :: ts, acc, msg =>
    let t := pyStrip t
    if t = "" then parseFailTokens lineCount ts acc msg
    else
      match matchFailError t with
      | none =>
        .error (.errorExc ("Error in line " ++ toString lineCount ++
          ": Invalid error class format: " ++ t))
      | some (w, m) =>
        match parse_error_class w with
        | none =>
          .error (.errorExc ("Error in line " ++ toString lineCount ++
            ": Unknown error class: " ++ t))
        | some ec =>
          if ec ∈ acc then
            .error (.errorExc ("Error in line " ++ toString lineCount ++
              ": Duplicated error class: " ++ ec.str))
          else
            let msg' := match m with
              | some s => if s ≠ "" then s else msg
              | none => msg
            parseFailTokens lineCount ts (acc ++ [ec]) msg'

/-- The line loop of `parse_fail`: blank and `#` lines are skipped (these are
the only lines that advance the reported line number, as in the source); a
second contentful line after classes were recorded is a decode error; a
contentful line must match the `FAIL` pattern. -/
def parseFailLines (lineCount : Nat) :
    List String → List ErrorClass → String → Except PyExc (List ErrorClass × String)
  | [], acc, msg => .ok (acc, msg)
  | l :: ls, acc, msg =>
    let l := pyStrip l
    if l = "" ∨ l.data.head? = some '#' then parseFailLines (lineCount + 1) ls acc msg
    else if acc ≠ [] then
      .error (.errorExc ("Error in line " ++ toString lineCount ++
        ": Error classes already defined in previous lines"))
    else
      match matchFailLine l with
      | none =>
        .error (.errorExc ("Error in line " ++ toString lineCount ++
          ": Unexpected format for failure line"))
      | some rhs =>
        match parseFailTokens lineCount ((splitOnChar '|' rhs.data).map String.mk) acc msg with
        | .error e => .error e
        | .ok (acc2, msg2) => parseFailLines lineCount ls acc2 msg2

/-- `parse_fail` of `utilities/lib/outcome_parser.py`. -/
def parse_fail (text : String) : Except PyExc OutcomeData :=
  (parseFailLines 1 (pySplitlines text) [] "").map
    (fun r => ⟨.FAIL, r.1, r.2, []⟩)

/-- The line loop of `parse_pass`: blank and `#` lines are skipped; a
contentful line must match the value pattern; the duplicate check tests the
raw (unstripped) group 1 against the stored keys, while insertion uses the
stripped name — exactly as the source does. -/
def parsePassLines (lineCount : Nat) :
    List String → List (String × Value) → Except PyExc (List (String × Value))
  | [], vals => .ok vals
  | l :: ls, vals =>
    let l := pyStrip l
    if l = "" ∨ l.data.head? = some '#' then parsePassLines (lineCount + 1) ls vals
    else
      match matchValueLine l with
      | none =>
        .error (.errorExc ("Error in line " ++ toString lineCount ++
          ": Unexpected format for value"))
      | some (g1, g2, g3) =>
        let v : Value := ⟨pyStrip g2, pyStrip g3⟩
        if g1 ∈ vals.map Prod.fst then
          .error (.errorExc ("Error in line " ++ toString lineCount ++
            ": Duplicated name-path: " ++ g1))
        else parsePassLines (lineCount + 1) ls (dictSet vals (pyStrip g1) v)

/-- `parse_pass` of `utilities/lib/outcome_parser.py`. -/
def parse_pass (text : String) : Except PyExc OutcomeData :=
  (parsePassLines 1 (pySplitlines text) []).map
    (fun vs => ⟨.PASS, [], "", vs⟩)

/-- `parse_outcome` of `utilities/lib/outcome_parser.py`, with the file given
as its name and text: the decoder is chosen by whether the file NAME contains
the substring `PASS` (checked first) or `FAIL`; any other name is a decode
error, regardless of the document's content. -/
def parse_outcome (name text : String) : Except PyExc OutcomeData :=
  if containsSubstr name "PASS" then parse_pass text
  else if containsSubstr name "FAIL" then parse_fail text
  else .error (.errorExc ("Error: Unknown outcome file name: " ++ name))

/-- What the adapter subprocess did for one invocation: exceeded the
10-second timeout, or exited with a code and captured stdout. -/
inductive AdapterResponse where
  | timeout
  | completed (returncode : Int) (stdout : String)
deriving DecidableEq, Repr

/-- The body of `AdapterRunner.run` inside its outer `try`: a timeout raises
`AdapterRunnerError`; exit 0 decodes stdout as a Pass outcome; exit 1 decodes
it as a Fail outcome and requires exactly one error class; any other exit
code raises `AdapterRunnerError`. -/
def adapterRunInner (resp : AdapterResponse) : Except PyExc OutcomeData :=
  match resp with
  | .timeout => .error (.errorExc "Test adapter timed out after 10 seconds.")
  | .completed 0 out => parse_pass out
  | .completed 1 out =>
    match parse_fail out with
    | .error e => .error e
    | .ok r =>
      if r.error_classes.length ≠ 1 then
        .error (.errorExc ("Test adapter returned " ++
          toString r.error_classes.length ++ " error classes, instead of one."))
      else .ok r
  | .completed c _ =>
    .error (.errorExc ("Test adapter returned unexpected exit code: " ++ toString c))

/-- `AdapterRunner.run` with its outer `except Error` handler: the handler
prints `result.stdout` for diagnosis, but after a timeout `result` is still
`None`, so that attribute access raises `AttributeError`, which replaces the
`AdapterRunnerError` being handled; for completed subprocesses the handler
prints and re-raises the original `Error`. -/
def adapterRun (resp : AdapterResponse) : Except PyExc OutcomeData :=
  match adapterRunInner resp with
  | .ok r => .ok r
  | .error e =>
    if e.isErrorKind then
      match resp with
      | .timeout => .error .attributeError
      | .completed _ _ => .error e
    else .error e

/-- `WorkingSet._process_test_case` for one test case, with the adapter's
behaviour and the expected-outcome file (name and text) as inputs: run the
adapter, load the expected outcome, compare; `except Error` converts a raised
`Error` into a Fail `ComparisonResult` whose single difference carries the
diagnostic text, while any other exception propagates out of the worker. -/
def processTestCase (resp : AdapterResponse) (outName outText : String) :
    Except PyExc ComparisonResult :=
  let body : Except PyExc ComparisonResult := do
    let result ← adapterRun resp
    let expected ← parse_outcome outName outText
    result.compare_with_expected expected
  match body with
  | .error (.errorExc m) => .ok ⟨.FAIL, [": " ++ m], 0⟩
  | other => other

/-- `TestCase` of `conformance_test.py`: the stable identifier, the input
file path and the derived expected-outcome path. -/
structure TestCase where
  identifier : Nat
  test_path : String
  outcome_path : String
deriving DecidableEq, Repr

/-- `Path.with_suffix(".out")` on a relative path string: replace the final
component's extension (or append `.out` if it has none). -/
def withSuffixOut (p : String) : String :=
  let comps := (splitOnChar '/' p.data).map String.mk
  let name := comps.getLastD ""
  let parts := (splitOnChar '.' name.data).map String.mk
  let newName :=
    if parts.length ≤ 1 then name ++ ".out"
    else joinWith "." parts.dropLast ++ ".out"
  joinWith "/" (comps.dropLast ++ [newName])

/-- `rel_path.parts[0]` of a relative path string. -/
def firstSegment (p : String) : String := ((splitOnChar '/' p.data).map String.mk).headD ""

/-- The discovery loop of `WorkingSet.scan_test_cases` over the paths
`rglob` yields, in `rglob` order: paths outside the tier's directories are
skipped, each kept path gets the running count as identifier, and a missing
expected-outcome file aborts the scan with an `Error`. -/
def scanLoop (dirs : List String) (hasOutcome : String → Bool) :
    Nat → List String → Except PyExc (List TestCase)
  | _, [] => .ok []
  | count, p :: ps =>
    if firstSegment p ∉ dirs then scanLoop dirs hasOutcome count ps
    else
      let tc : TestCase := ⟨count, p, withSuffixOut p⟩
      if !hasOutcome tc.outcome_path then
        .error (.errorExc ("The outcome file for a test case is missing: " ++
          tc.outcome_path))
      else (scanLoop dirs hasOutcome (count + 1) ps).map (fun rest => tc :: rest)

/-- Stable insertion into a list sorted by `test_path`. -/
def insertTC (x : TestCase) : List TestCase → List TestCase
  | [] => [x]
  | y :: ys => if strLt x.test_path y.test_path then x :: y :: ys else y :: insertTC x ys

/-- `list.sort(key=lambda x: x.test_path)` (stable ascending sort). -/
def sortTC : List TestCase → List TestCase
  | [] => []
  | x :: xs => insertTC x (sortTC xs)

/-- `WorkingSet.scan_test_cases`, with the filesystem abstracted into the
`rglob` result list and an outcome-file-existence predicate: identifiers are
assigned in discovery order by the loop, the empty result set is fatal, and
only then is the list sorted by path. -/
def scan_test_cases (dirs : List String) (foundPaths : List String)
    (hasOutcome : String → Bool) : Except PyExc (List TestCase) :=
  match scanLoop dirs hasOutcome 0 foundPaths with
  | .error e => .error e
  | .ok tcs =>
    if tcs = [] then .error (.errorExc "No test files found.")
    else .ok (sortTC tcs)

/-- C1: comparing two Pass outcomes with the same key set but a mismatching
value yields verdict Fail with one difference per mismatching key, but the
score is 10, not 0: the source sets `result.score = 10` unconditionally after
the value loop, so a Fail verdict from a value mismatch carries score 10. -/
theorem claim1_fail_score_ten :
    ∃ r, OutcomeData.compare_with_expected
        ⟨.PASS, [], "", [("a", ⟨"Integer", "1"⟩)]⟩
        ⟨.PASS, [], "", [("a", ⟨"Integer", "2"⟩)]⟩ = .ok r ∧
      r.status = .FAIL ∧ r.differences.length = 1 ∧ r.score = 10 :=
  ⟨_, rfl, rfl, rfl, rfl⟩

/-- C3: an adapter timeout is not converted into a Fail result: the timeout's
`AdapterRunnerError` is replaced by an `AttributeError` when the handler
prints `result.stdout` (with `result` still `None`), and that built-in
exception escapes the worker's `except Error` clause, aborting the batch. -/
theorem claim3_timeout_aborts_batch :
    ∀ outName outText : String,
      processTestCase .timeout outName outText = .error .attributeError :=
  fun _ _ => rfl

/-- C4 counterexample: two expected-outcome files with identical contents
decode differently depending only on their file names, so the decoder choice
is made by the filename, not by the document content, also for corpus files
loaded during a conformance run. -/
theorem claim4_counterexample :
    (∃ e, parse_outcome "example_PASS.out" "FAIL = Syntax" = .error e) ∧
    parse_outcome "example_FAIL.out" "FAIL = Syntax" =
      .ok ⟨.FAIL, [.Syntax_], "", []⟩ :=
  ⟨⟨_, rfl⟩, rfl⟩

/-- C5 counterexample: two Pass outcomes whose key sets agree after case
folding and whose values are identical do not compare as an exact Pass when
the original-case spellings differ: the value loop looks the expected
dictionary up with the actual side's original-case key and raises
`KeyError`. -/
theorem claim5_counterexample :
    OutcomeData.compare_with_expected
      ⟨.PASS, [], "", [("A", ⟨"Integer", "1"⟩)]⟩
      ⟨.PASS, [], "", [("a", ⟨"Integer", "1"⟩)]⟩ = .error (.keyError "A") :=
  rfl

/-- C8 counterexample: a Fail document whose `FAIL =` line carries no class
token is accepted by `parse_fail` and produces an empty error-class list. -/
theorem claim8_counterexample :
    parse_fail "FAIL =" = .ok ⟨.FAIL, [], "", []⟩ :=
  rfl

/-- C9: a name-path repeated on two value lines is only detected when the
regex's raw group 1 matches a stored (stripped) key: with a space before the
`=`, the duplicate check compares `"a "` against the stored key `"a"`, finds
no duplicate, and silently overwrites the first value; without the space the
intended decode error fires. -/
theorem claim9_duplicate_name_path :
    parse_pass "a = Integer(1)\na = Integer(2)" =
      .ok ⟨.PASS, [], "", [("a", ⟨"Integer", "2"⟩)]⟩ ∧
    parse_pass "a= Integer(1)\na= Integer(2)" =
      .error (.errorExc "Error in line 2: Duplicated name-path: a") :=
  ⟨rfl, rfl⟩

/-- C10 counterexample: identifiers are assigned in discovery order before
the sort, so when `rglob` yields paths out of lexicographic order the sorted
test-case list carries decreasing identifiers. -/
theorem claim10_counterexample :
    scan_test_cases ["core"] ["core/b.elcl", "core/a.elcl"] (fun _ => true) =
      .ok [⟨1, "core/a.elcl", "core/a.out"⟩, ⟨0, "core/b.elcl", "core/b.out"⟩] :=
  rfl

theorem strDataAppend (a b : String) : (a ++ b).data = a.data ++ b.data := rfl

theorem valueDiffMsg_ne_empty (v w : Value) : valueDiffMsg v w ≠ "" := by
  intro h
  have hd := congrArg String.data h
  simp only [valueDiffMsg, strDataAppend, List.append_eq_nil] at hd
  exact (by decide : "Expected value ".data ≠ []) hd.1.1.1

/-- C2: comparing a Fail outcome carrying exactly one class `c` against a Fail
outcome with a non-empty class list: membership gives Pass with score 10; a
non-member `Syntax` against a first-listed accepted-deviation class gives
PassWithAcceptedDeviation with score 8 and one explanatory difference; any
other non-member (in particular `Character` against the list `[Syntax]`, see
the witness) gives Fail with score 0. -/
theorem claim2_fail_fail_comparison (c e0 : ErrorClass) (es : List ErrorClass)
    (m1 m2 : String) (vs1 vs2 : List (String × Value)) :
    (c ∈ e0 :: es →
      OutcomeData.compare_with_expected ⟨.FAIL, [c], m1, vs1⟩ ⟨.FAIL, e0 :: es, m2, vs2⟩ =
        .ok ⟨.PASS, [], 10⟩) ∧
    (c ∉ e0 :: es → c = .Syntax_ → e0 ∈ ACCEPTED_SYNTAX_ERRORS →
      ∃ d, OutcomeData.compare_with_expected ⟨.FAIL, [c], m1, vs1⟩ ⟨.FAIL, e0 :: es, m2, vs2⟩ =
        .ok ⟨.PASS_WITH_ACCEPTED_DEVIATION, [d], 8⟩) ∧
    (c ∉ e0 :: es → ¬(c = .Syntax_ ∧ e0 ∈ ACCEPTED_SYNTAX_ERRORS) →
      ∃ d, OutcomeData.compare_with_expected ⟨.FAIL, [c], m1, vs1⟩ ⟨.FAIL, e0 :: es, m2, vs2⟩ =
        .ok ⟨.FAIL, [d], 0⟩) := by
  refine ⟨?_, ?_, ?_⟩
  · intro hmem
    simp [OutcomeData.compare_with_expected, hmem]
  · intro hmem hsyn hacc
    subst hsyn
    refine ⟨"Expected error " ++ e0.str ++ " but got " ++ ErrorClass.Syntax_.str ++
      ", which is also accepted.", ?_⟩
    simp [OutcomeData.compare_with_expected, hmem, hacc]
  · intro hmem hnot
    by_cases hsyn : c = ErrorClass.Syntax_
    · subst hsyn
      have hacc : e0 ∉ ACCEPTED_SYNTAX_ERRORS := fun h => hnot ⟨rfl, h⟩
      refine ⟨failClassesMsg (e0 :: es) .Syntax_, ?_⟩
      simp [OutcomeData.compare_with_expected, hmem, hacc]
    · refine ⟨failClassesMsg (e0 :: es) c, ?_⟩
      simp [OutcomeData.compare_with_expected, hmem, hsyn]

/-- C2 witness: actual class `Character` against the expected list `[Syntax]`
is not a member and is not the `Syntax` substitution, so the verdict is Fail
with score 0 — the deviation is not accepted in the reverse direction. -/
theorem claim2_witness :
    ∃ d, OutcomeData.compare_with_expected
        ⟨.FAIL, [.Character], "", []⟩ ⟨.FAIL, [.Syntax_], "", []⟩ =
      .ok ⟨.FAIL, [d], 0⟩ :=
  (claim2_fail_fail_comparison .Character .Syntax_ [] "" "" [] []).2.2
    (by decide) (by simp)

theorem compare_float_values (s1 s2 : String) (x y : PyFloat)
    (h1 : parsePyFloat s1 = some x) (h2 : parsePyFloat s2 = some y) :
    (Value.mk "Float" s1).compare_with_expected ⟨"Float", s2⟩ =
      compareFloatParsed x y (valueDiffMsg ⟨"Float", s1⟩ ⟨"Float", s2⟩) := by
  simp [Value.compare_with_expected, Value.compare_float, h1, h2]

/-- C6: for two Float values whose texts parse as finite floats `a` and `b`,
the comparison accepts them as equal exactly when
`|a − b| ≤ max(relTol·max(|a|,|b|), absTol)` with relTol = 1e-9 and
absTol = 1e-10, regardless of the sign of the difference; otherwise a
difference is reported. -/
theorem claim6_float_tolerance (s1 s2 : String) (a b : ℚ)
    (h1 : parsePyFloat s1 = some (.finite a))
    (h2 : parsePyFloat s2 = some (.finite b)) :
    ((Value.mk "Float" s1).compare_with_expected ⟨"Float", s2⟩ = "" ↔
      |a - b| ≤ max (DEFAULT_REL_TOL * max |a| |b|) DEFAULT_ABS_TOL) := by
  rw [compare_float_values s1 s2 _ _ h1 h2]
  by_cases hle : |a - b| ≤ max (DEFAULT_REL_TOL * max |a| |b|) DEFAULT_ABS_TOL
  · simp [compareFloatParsed, PyFloat.isNan, PyFloat.isInf, hle]
  · simp [compareFloatParsed, PyFloat.isNan, PyFloat.isInf, hle,
      valueDiffMsg_ne_empty]

/-- C6 witness: the texts `1.5` and `1.5000000001` parse as finite rationals
whose difference lies within the relative tolerance, so the comparison
reports no difference. -/
theorem claim6_witness :
    (Value.mk "Float" "1.5").compare_with_expected ⟨"Float", "1.5000000001"⟩ = "" := by
  have hn1 : digitsToNat ['1', '5'] = 15 := by decide
  have hn2 : digitsToNat ['1', '5', '0', '0', '0', '0', '0', '0', '0', '0', '1'] =
      15000000001 := by decide
  refine (claim6_float_tolerance "1.5" "1.5000000001"
      (decimalToRat false ['1'] ['5'] 0)
      (decimalToRat false ['1'] ['5', '0', '0', '0', '0', '0', '0', '0', '0', '1'] 0)
      rfl rfl).mpr ?_
  refine le_trans ?_ (le_max_right _ _)
  simp only [decimalToRat, hn1, hn2, DEFAULT_ABS_TOL]
  norm_num
  rw [abs_le, hn1, hn2]
  have ht : (10 : Int).toNat = 10 := rfl
  rw [ht]
  constructor <;> norm_num

set_option maxRecDepth 8000 in
theorem compareFloatParsed_inf_finite (p : Bool) (v : ℚ) (msg : String) :
    compareFloatParsed (.inf p) (.finite v) msg =
      if (decide (LARGE_THRESHOLD < v) && p) || (decide (v < -LARGE_THRESHOLD) && !p)
      then "" else msg := by
  simp only [compareFloatParsed, PyFloat.isNan, PyFloat.isInf, PyFloat.gt, PyFloat.lt,
    Bool.false_eq_true, if_false, Bool.true_and, Bool.and_true, Bool.not_false,
    Bool.and_false, Bool.false_and, Bool.not_true, Bool.true_eq_false, ite_false,
    ite_true, Bool.true_or, Bool.or_false, Bool.false_or, if_true]

set_option maxRecDepth 8000 in
theorem compareFloatParsed_finite_inf (p : Bool) (v : ℚ) (msg : String) :
    compareFloatParsed (.finite v) (.inf p) msg =
      if (decide (LARGE_THRESHOLD < v) && p) || (decide (v < -LARGE_THRESHOLD) && !p)
      then "" else msg := by
  simp only [compareFloatParsed, PyFloat.isNan, PyFloat.isInf, PyFloat.gt, PyFloat.lt,
    Bool.false_eq_true, if_false, Bool.true_and, Bool.and_true, Bool.not_false,
    Bool.and_false, Bool.false_and, Bool.not_true, Bool.true_eq_false, ite_false,
    ite_true, Bool.true_or, Bool.or_false, Bool.false_or, if_true]

theorem largeCond_iff (v : ℚ) (p : Bool) :
    ((decide (LARGE_THRESHOLD < v) && p) || (decide (v < -LARGE_THRESHOLD) && !p)) = true ↔
      LARGE_THRESHOLD < |v| ∧ (if p then 0 < v else v < 0) := by
  have hT : (0 : ℚ) < LARGE_THRESHOLD := by rw [LARGE_THRESHOLD]; positivity
  cases p <;> simp <;> constructor
  · intro hv
    have hv0 : v < 0 := lt_trans hv (by linarith)
    rw [abs_of_neg hv0]
    exact ⟨by linarith, hv0⟩
  · rintro ⟨hva, hv0⟩
    rw [abs_of_neg hv0] at hva
    linarith
  · intro hv
    have hv0 : 0 < v := lt_trans hT hv
    rw [abs_of_pos hv0]
    exact ⟨hv, hv0⟩
  · rintro ⟨hva, hv0⟩
    rw [abs_of_pos hv0] at hva
    exact hva

/-- C7: float comparisons with a NaN or infinite side: NaN matches only NaN
(in both argument orders); two infinities match exactly when their signs
agree; an infinity against a finite value `v` matches exactly when
`|v| > 1e307` and the sign of `v` matches the infinity's sign (again in both
argument orders). -/
theorem claim7_float_specials (s1 s2 : String) (x y : PyFloat)
    (h1 : parsePyFloat s1 = some x) (h2 : parsePyFloat s2 = some y) :
    (x = .nan →
      ((Value.mk "Float" s1).compare_with_expected ⟨"Float", s2⟩ = "" ↔ y = .nan)) ∧
    (y = .nan →
      ((Value.mk "Float" s1).compare_with_expected ⟨"Float", s2⟩ = "" ↔ x = .nan)) ∧
    (∀ p q, x = .inf p → y = .inf q →
      ((Value.mk "Float" s1).compare_with_expected ⟨"Float", s2⟩ = "" ↔ p = q)) ∧
    (∀ p v, x = .inf p → y = .finite v →
      ((Value.mk "Float" s1).compare_with_expected ⟨"Float", s2⟩ = "" ↔
        LARGE_THRESHOLD < |v| ∧ (if p then 0 < v else v < 0))) ∧
    (∀ p v, x = .finite v → y = .inf p →
      ((Value.mk "Float" s1).compare_with_expected ⟨"Float", s2⟩ = "" ↔
        LARGE_THRESHOLD < |v| ∧ (if p then 0 < v else v < 0))) := by
  rw [compare_float_values s1 s2 x y h1 h2]
  refine ⟨?_, ?_, ?_, ?_, ?_⟩
  · rintro rfl
    cases y <;>
      simp [compareFloatParsed, PyFloat.isNan, PyFloat.isInf, PyFloat.gt, PyFloat.lt,
        valueDiffMsg_ne_empty]
  · rintro rfl
    cases x <;>
      simp [compareFloatParsed, PyFloat.isNan, PyFloat.isInf, PyFloat.gt, PyFloat.lt,
        valueDiffMsg_ne_empty]
  · rintro p q rfl rfl
    cases p <;> cases q <;>
      simp [compareFloatParsed, PyFloat.isNan, PyFloat.isInf, PyFloat.gt, PyFloat.lt,
        valueDiffMsg_ne_empty]
  · rintro p v rfl rfl
    rw [compareFloatParsed_inf_finite, ← largeCond_iff v p]
    by_cases hb : ((decide (LARGE_THRESHOLD < v) && p) ||
        (decide (v < -LARGE_THRESHOLD) && !p)) = true
    · simp [hb]
    · simp [hb, valueDiffMsg_ne_empty]
  · rintro p v rfl rfl
    rw [compareFloatParsed_finite_inf, ← largeCond_iff v p]
    by_cases hb : ((decide (LARGE_THRESHOLD < v) && p) ||
        (decide (v < -LARGE_THRESHOLD) && !p)) = true
    · simp [hb]
    · simp [hb, valueDiffMsg_ne_empty]

/-- C7 witness: both texts parse as NaN, and the comparison accepts the pair. -/
theorem claim7_witness :
    (Value.mk "Float" "nan").compare_with_expected ⟨"Float", "nan"⟩ = "" :=
  ((claim7_float_specials "nan" "nan" .nan .nan rfl rfl).1 rfl).mpr rfl

/-- C4 (amended): the decoder applied to an expected-outcome file is selected
by its filename alone: a name containing `PASS` (checked first) gets the Pass
decoder, otherwise a name containing `FAIL` gets the Fail decoder, otherwise
loading fails — in every case independently of the document's content. -/
theorem claim4_filename_dispatch (name text : String) :
    (containsSubstr name "PASS" = true →
      parse_outcome name text = parse_pass text) ∧
    (containsSubstr name "PASS" = false → containsSubstr name "FAIL" = true →
      parse_outcome name text = parse_fail text) ∧
    (containsSubstr name "PASS" = false → containsSubstr name "FAIL" = false →
      parse_outcome name text =
        .error (.errorExc ("Error: Unknown outcome file name: " ++ name))) :=
  ⟨fun h1 => by simp [parse_outcome, h1],
   fun h1 h2 => by simp [parse_outcome, h1, h2],
   fun h1 h2 => by simp [parse_outcome, h1, h2]⟩

/-- C4 witness: a filename containing `PASS` is decoded with the Pass
decoder. -/
theorem claim4_witness :
    parse_outcome "example_PASS.out" "a = Integer(1)" = parse_pass "a = Integer(1)" :=
  (claim4_filename_dispatch "example_PASS.out" "a = Integer(1)").1 rfl

theorem compareFloatParsed_self (x : PyFloat) (msg : String) :
    compareFloatParsed x x msg = "" := by
  cases x with
  | nan => rfl
  | inf p => cases p <;> rfl
  | finite q =>
    simp [compareFloatParsed, PyFloat.isNan, PyFloat.isInf]
    intro h1 h2
    norm_num [DEFAULT_ABS_TOL] at h2

theorem compare_value_self (v : Value)
    (h : v.type = "Float" → (parsePyFloat v.value).isSome = true) :
    v.compare_with_expected v = "" := by
  by_cases ht : v.type = "Float"
  · obtain ⟨x, hx⟩ := Option.isSome_iff_exists.mp (h ht)
    simp [Value.compare_with_expected, ht, Value.compare_float, hx,
      compareFloatParsed_self]
  · simp [Value.compare_with_expected, ht]

theorem dictGet_some_of_mem (n : String) (vs : List (String × Value))
    (h : n ∈ vs.map Prod.fst) : ∃ v, dictGet n vs = some v := by
  induction vs with
  | nil => simp at h
  | cons p rest ih =>
    by_cases hk : p.1 = n
    · exact ⟨p.2, by simp [dictGet, hk]⟩
    · have : n ∈ rest.map Prod.fst := by
        simp at h
        rcases h with h | h
        · exact absurd h.symm hk
        · simpa using h
      obtain ⟨v, hv⟩ := ih this
      exact ⟨v, by simp [dictGet, hk, hv]⟩

theorem dictGet_mem_snd (n : String) (vs : List (String × Value)) (v : Value)
    (h : dictGet n vs = some v) : v ∈ vs.map Prod.snd := by
  induction vs with
  | nil => simp [dictGet] at h
  | cons p rest ih =>
    by_cases hk : p.1 = n
    · simp [dictGet, hk] at h
      simp [← h]
    · simp [dictGet, hk] at h
      simp [ih h]

theorem valueLoop_self (vs : List (String × Value)) (names : List String)
    (hkeys : ∀ n ∈ names, n ∈ vs.map Prod.fst)
    (hvals : ∀ v ∈ vs.map Prod.snd, v.type = "Float" →
      (parsePyFloat v.value).isSome = true) :
    valueLoop vs vs names = .ok [] := by
  induction names with
  | nil => rfl
  | cons n ns ih =>
    have ihr := ih (fun m hm => hkeys m (List.mem_cons_of_mem n hm))
    by_cases hmem : n ∈ ignored_meta_names
    · simpa [valueLoop, hmem] using ihr
    · obtain ⟨v, hv⟩ := dictGet_some_of_mem n vs (hkeys n (List.mem_cons_self n ns))
      have hcv : v.compare_with_expected v = "" :=
        compare_value_self v (hvals v (dictGet_mem_snd n vs v hv))
      simp [valueLoop, hmem, hv, hcv, ihr, Except.map]

theorem mem_insertSorted (x a : String) (l : List String) :
    a ∈ insertSorted x l ↔ a = x ∨ a ∈ l := by
  induction l with
  | nil => simp [insertSorted]
  | cons y ys ih =>
    by_cases hlt : strLt x y = true
    · simp [insertSorted, hlt]
    · simp [insertSorted, hlt, ih]
      tauto

theorem mem_sortStrings (a : String) (l : List String) :
    a ∈ sortStrings l ↔ a ∈ l := by
  induction l with
  | nil => simp [sortStrings]
  | cons x xs ih => simp [sortStrings, mem_insertSorted, ih]

/-- C5 (amended): two Pass outcomes over the same value dictionary — equal
name-paths verbatim, not merely after case folding, and identical values,
every Float-typed value's text parsing as a float — compare as an exact Pass
with score 10 and an empty difference list.  (The case-folded variant of the
claim fails, see the counterexample: the value lookup is case-sensitive.) -/
theorem claim5_identical_pass_outcomes (vs : List (String × Value))
    (hfloat : ∀ v ∈ vs.map Prod.snd, v.type = "Float" →
      (parsePyFloat v.value).isSome = true) :
    OutcomeData.compare_with_expected ⟨.PASS, [], "", vs⟩ ⟨.PASS, [], "", vs⟩ =
      .ok ⟨.PASS, [], 10⟩ := by
  have hloop : valueLoop vs vs (sortStrings (vs.map Prod.fst)) = .ok [] :=
    valueLoop_self vs _ (fun n hn => (mem_sortStrings n _).mp hn) hfloat
  have hfilter : ∀ l : List String, l.filter (fun n => n ∉ l) = [] := by
    intro l
    refine List.filter_eq_nil_iff.mpr ?_
    intro a ha
    simp [ha]
  simp only [OutcomeData.compare_with_expected, hfilter, List.map_nil,
    List.append_nil, ne_eq, not_true_eq_false, if_false, hloop, Except.map]
  simp

/-- C5 witness: a concrete dictionary with an `Integer` and a parseable
`Float` value compares with itself as an exact Pass. -/
theorem claim5_witness :
    OutcomeData.compare_with_expected
      ⟨.PASS, [], "", [("a", ⟨"Integer", "1"⟩), ("b", ⟨"Float", "1.5"⟩)]⟩
      ⟨.PASS, [], "", [("a", ⟨"Integer", "1"⟩), ("b", ⟨"Float", "1.5"⟩)]⟩ =
      .ok ⟨.PASS, [], 10⟩ :=
  claim5_identical_pass_outcomes _ (by decide)

theorem nodup_concat_of_not_mem (l : List ErrorClass) (e : ErrorClass)
    (hl : l.Nodup) (he : e ∉ l) : (l ++ [e]).Nodup := by
  rw [List.nodup_append]
  refine ⟨hl, List.nodup_singleton e, ?_⟩
  intro a ha hae
  simp at hae
  subst hae
  exact he ha

theorem parseFailTokens_nodup (toks : List String) (lc : Nat)
    (acc : List ErrorClass) (msg : String) (res : List ErrorClass × String)
    (h : parseFailTokens lc toks acc msg = .ok res) (hacc : acc.Nodup) :
    res.1.Nodup := by
  induction toks generalizing acc msg with
  | nil =>
    simp [parseFailTokens] at h
    rw [← h]
    exact hacc
  | cons t ts ih =>
    rw [parseFailTokens] at h
    by_cases ht : pyStrip t = ""
    · rw [if_pos ht] at h
      exact ih acc msg h hacc
    · rw [if_neg ht] at h
      cases hm : matchFailError (pyStrip t) with
      | none => rw [hm] at h; exact absurd h (by simp)
      | some wm =>
        obtain ⟨w, m⟩ := wm
        rw [hm] at h
        simp only [] at h
        cases hp : parse_error_class w with
        | none => rw [hp] at h; exact absurd h (by simp)
        | some ec =>
          rw [hp] at h
          simp only [] at h
          by_cases hdup : ec ∈ acc
          · rw [if_pos hdup] at h
            exact absurd h (by simp)
          · rw [if_neg hdup] at h
            exact ih _ _ h (nodup_concat_of_not_mem acc ec hacc hdup)

theorem parseFailLines_nodup (lines : List String) (lc : Nat)
    (acc : List ErrorClass) (msg : String) (res : List ErrorClass × String)
    (h : parseFailLines lc lines acc msg = .ok res) (hacc : acc.Nodup) :
    res.1.Nodup := by
  induction lines generalizing lc acc msg with
  | nil =>
    simp [parseFailLines] at h
    rw [← h]
    exact hacc
  | cons l ls ih =>
    rw [parseFailLines] at h
    by_cases hskip : pyStrip l = "" ∨ (pyStrip l).data.head? = some '#'
    · rw [if_pos hskip] at h
      exact ih (lc + 1) acc msg h hacc
    · rw [if_neg hskip] at h
      by_cases hne : acc ≠ []
      · rw [if_pos hne] at h
        exact absurd h (by simp)
      · rw [if_neg hne] at h
        cases hm : matchFailLine (pyStrip l) with
        | none => rw [hm] at h; exact absurd h (by simp)
        | some rhs =>
          rw [hm] at h
          simp only [] at h
          cases htok : parseFailTokens lc ((splitOnChar '|' rhs.data).map String.mk)
              acc msg with
          | error e => rw [htok] at h; exact absurd h (by simp)
          | ok am =>
            rw [htok] at h
            exact ih lc am.1 am.2 h
              (parseFailTokens_nodup _ lc acc msg am htok hacc)

/-- C8 (amended): every outcome accepted by the Fail decoder carries a
duplicate-free error-class list; the list is however not always non-empty —
a document whose `FAIL` line carries an empty class list (or one with no
contentful line at all) is accepted with an empty list, see the
counterexample. -/
theorem claim8_nodup (text : String) (r : OutcomeData)
    (h : parse_fail text = .ok r) : r.error_classes.Nodup := by
  unfold parse_fail at h
  cases hp : parseFailLines 1 (pySplitlines text) [] "" with
  | error e => rw [hp] at h; exact absurd h (by simp [Except.map])
  | ok res =>
    rw [hp] at h
    simp [Except.map] at h
    rw [← h]
    exact parseFailLines_nodup _ 1 [] "" res hp List.nodup_nil

/-- C8 witness: a two-class document is accepted and its class list is
duplicate-free. -/
theorem claim8_witness :
    ((⟨.FAIL, [.UnexpectedEnd, .Syntax_], "", []⟩ : OutcomeData).error_classes).Nodup :=
  claim8_nodup "FAIL = UnexpectedEnd|Syntax" _ rfl

theorem listLtChar_asymm : ∀ a b : List Char, listLtChar a b = true → listLtChar b a = false := by
  intro a
  induction a with
  | nil =>
    intro b h
    cases b with
    | nil => simp [listLtChar] at h
    | cons y ys => rfl
  | cons x xs ih =>
    intro b h
    cases b with
    | nil => simp [listLtChar] at h
    | cons y ys =>
      by_cases h1 : x.toNat < y.toNat
      · have h2 : ¬ y.toNat < x.toNat := by omega
        simp [listLtChar, h1, h2]
      · by_cases h2 : y.toNat < x.toNat
        · simp [listLtChar, h1, h2] at h
        · simp [listLtChar, h1, h2] at h ⊢
          exact ih ys h

theorem listLtChar_trans :
    ∀ a b c : List Char, listLtChar a b = true → listLtChar b c = true →
      listLtChar a c = true := by
  intro a
  induction a with
  | nil =>
    intro b c hab hbc
    cases b with
    | nil => simp [listLtChar] at hab
    | cons y ys =>
      cases c with
      | nil => simp [listLtChar] at hbc
      | cons z zs => rfl
  | cons x xs ih =>
    intro b c hab hbc
    cases b with
    | nil => simp [listLtChar] at hab
    | cons y ys =>
      cases c with
      | nil => simp [listLtChar] at hbc
      | cons z zs =>
        by_cases hxy : x.toNat < y.toNat
        · by_cases hyz : y.toNat < z.toNat
          · have h : x.toNat < z.toNat := by omega
            simp [listLtChar, h]
          · by_cases hzy : z.toNat < y.toNat
            · simp [listLtChar, hyz, hzy] at hbc
            · have h : x.toNat < z.toNat := by omega
              simp [listLtChar, h]
        · by_cases hyx : y.toNat < x.toNat
          · simp [listLtChar, hxy, hyx] at hab
          · simp [listLtChar, hxy, hyx] at hab
            by_cases hyz : y.toNat < z.toNat
            · have h : x.toNat < z.toNat := by omega
              simp [listLtChar, h]
            · by_cases hzy : z.toNat < y.toNat
              · simp [listLtChar, hyz, hzy] at hbc
              · simp [listLtChar, hyz, hzy] at hbc
                have hxz : ¬ x.toNat < z.toNat := by omega
                have hzx : ¬ z.toNat < x.toNat := by omega
                simp [listLtChar, hxz, hzx]
                exact ih ys zs hab hbc

theorem strLt_asymm (a b : String) (h : strLt a b = true) : strLt b a = false :=
  listLtChar_asymm a.data b.data h

theorem strLt_trans (a b c : String) (hab : strLt a b = true) (hbc : strLt b c = true) :
    strLt a c = true :=
  listLtChar_trans a.data b.data c.data hab hbc

theorem mem_insertTC (x a : TestCase) (l : List TestCase) :
    a ∈ insertTC x l ↔ a = x ∨ a ∈ l := by
  induction l with
  | nil => simp [insertTC]
  | cons y ys ih =>
    by_cases hlt : strLt x.test_path y.test_path = true
    · simp [insertTC, hlt]
    · simp [insertTC, hlt, ih]
      tauto

theorem pairwise_insertTC (x : TestCase) (l : List TestCase)
    (h : l.Pairwise (fun a b => strLt b.test_path a.test_path = false)) :
    (insertTC x l).Pairwise (fun a b => strLt b.test_path a.test_path = false) := by
  induction l with
  | nil => simp [insertTC]
  | cons y ys ih =>
    rw [List.pairwise_cons] at h
    obtain ⟨hy, hys⟩ := h
    by_cases hlt : strLt x.test_path y.test_path = true
    · rw [insertTC, if_pos hlt]
      refine List.Pairwise.cons ?_ (List.Pairwise.cons hy hys)
      intro z hz
      rcases List.mem_cons.mp hz with rfl | hz
      · exact strLt_asymm _ _ hlt
      · cases hzx : strLt z.test_path x.test_path with
        | false => rfl
        | true =>
          have hzy := strLt_trans _ _ _ hzx hlt
          rw [hy z hz] at hzy
          exact absurd hzy (by simp)
    · rw [insertTC, if_neg hlt]
      refine List.Pairwise.cons ?_ (ih hys)
      intro w hw
      rcases (mem_insertTC x w ys).mp hw with rfl | hw
      · cases hb : strLt w.test_path y.test_path with
        | false => rfl
        | true => exact absurd hb hlt
      · exact hy w hw

theorem sortTC_pairwise (l : List TestCase) :
    (sortTC l).Pairwise (fun a b => strLt b.test_path a.test_path = false) := by
  induction l with
  | nil => simp [sortTC]
  | cons x xs ih => exact pairwise_insertTC x (sortTC xs) ih

theorem mem_sortTC (a : TestCase) (l : List TestCase) : a ∈ sortTC l ↔ a ∈ l := by
  induction l with
  | nil => simp [sortTC]
  | cons x xs ih => simp [sortTC, mem_insertTC, ih]

theorem scanLoop_all_skip (dirs : List String) (ho : String → Bool) :
    ∀ (ps : List String) (c : Nat), (∀ p ∈ ps, firstSegment p ∉ dirs) →
      scanLoop dirs ho c ps = .ok [] := by
  intro ps
  induction ps with
  | nil => intro c _; rfl
  | cons q qs ih =>
    intro c h
    rw [scanLoop, if_pos (h q (List.mem_cons_self q qs))]
    exact ih c (fun p hp => h p (List.mem_cons_of_mem q hp))

theorem scanLoop_missing (dirs : List String) (ho : String → Bool) (p : String)
    (hseg : firstSegment p ∈ dirs) (hmiss : ho (withSuffixOut p) = false) :
    ∀ (ps : List String) (c : Nat), p ∈ ps →
      ∃ e, scanLoop dirs ho c ps = .error e := by
  intro ps
  induction ps with
  | nil => intro c hp; simp at hp
  | cons q qs ih =>
    intro c hp
    rcases List.mem_cons.mp hp with rfl | hq
    · refine ⟨.errorExc ("The outcome file for a test case is missing: " ++
        withSuffixOut p), ?_⟩
      simp [scanLoop, hseg, hmiss]
    · by_cases hq1 : firstSegment q ∉ dirs
      · rw [scanLoop, if_pos hq1]
        exact ih c hq
      · rw [scanLoop, if_neg hq1]
        cases hb : ho (withSuffixOut q) with
        | false =>
          exact ⟨.errorExc ("The outcome file for a test case is missing: " ++
            withSuffixOut q), by simp [hb]⟩
        | true =>
          obtain ⟨e, he⟩ := ih (c + 1) hq
          exact ⟨e, by simp [hb, he, Except.map]⟩

theorem scanLoop_ids (dirs : List String) (ho : String → Bool) :
    ∀ (ps : List String) (c : Nat) (l : List TestCase),
      scanLoop dirs ho c ps = .ok l →
      ∀ tc ∈ l, c ≤ tc.identifier ∧
        (ps.filter (fun p => firstSegment p ∈ dirs))[tc.identifier - c]? =
          some tc.test_path := by
  intro ps
  induction ps with
  | nil =>
    intro c l h tc htc
    simp [scanLoop] at h
    subst h
    simp at htc
  | cons q qs ih =>
    intro c l h tc htc
    rw [scanLoop] at h
    by_cases hq1 : firstSegment q ∉ dirs
    · rw [if_pos hq1] at h
      have hres := ih c l h tc htc
      have hf : (q :: qs).filter (fun p => firstSegment p ∈ dirs) =
          qs.filter (fun p => firstSegment p ∈ dirs) := by
        simp [List.filter_cons, hq1]
      rw [hf]
      exact hres
    · rw [if_neg hq1] at h
      have hseg : firstSegment q ∈ dirs := not_not.mp hq1
      have hf : (q :: qs).filter (fun p => firstSegment p ∈ dirs) =
          q :: qs.filter (fun p => firstSegment p ∈ dirs) := by
        simp [List.filter_cons, hseg]
      cases hb : ho (withSuffixOut q) with
      | false => simp [hb] at h
      | true =>
        simp only [hb, Bool.not_true, Bool.false_eq_true, if_false] at h
        cases hrec : scanLoop dirs ho (c + 1) qs with
        | error e => rw [hrec] at h; simp [Except.map] at h
        | ok rest =>
          rw [hrec] at h
          simp [Except.map] at h
          rw [← h] at htc
          rcases List.mem_cons.mp htc with rfl | htc2
          · refine ⟨le_refl c, ?_⟩
            rw [hf]
            simp
          · obtain ⟨h1, h2⟩ := ih (c + 1) rest hrec tc htc2
            refine ⟨by omega, ?_⟩
            have hidx : tc.identifier - c = (tc.identifier - (c + 1)) + 1 := by omega
            rw [hf, hidx, List.getElem?_cons_succ]
            exact h2

/-- C10 (amended): the corpus scan fails the run when an included input file
lacks its expected-outcome file and when the resulting set is empty; on
success the test-case list is sorted by input-file path, but identifiers are
assigned in discovery (`rglob`) order before the sort — each identifier
indexes the discovery-order position of the case's path — so identifiers need
not increase along the path-sorted list (see the counterexample). -/
theorem claim10_scan (dirs paths : List String) (hasOutcome : String → Bool) :
    ((∀ p ∈ paths, firstSegment p ∉ dirs) →
      scan_test_cases dirs paths hasOutcome =
        .error (.errorExc "No test files found.")) ∧
    (∀ p ∈ paths, firstSegment p ∈ dirs → hasOutcome (withSuffixOut p) = false →
      ∃ e, scan_test_cases dirs paths hasOutcome = .error e) ∧
    (∀ L, scan_test_cases dirs paths hasOutcome = .ok L →
      L.Pairwise (fun a b => strLt b.test_path a.test_path = false) ∧
      ∀ tc ∈ L, (paths.filter (fun p => firstSegment p ∈ dirs))[tc.identifier]? =
        some tc.test_path) := by
  refine ⟨?_, ?_, ?_⟩
  · intro h
    rw [scan_test_cases, scanLoop_all_skip dirs hasOutcome paths 0 h]
    simp
  · intro p hp hseg hmiss
    obtain ⟨e, he⟩ := scanLoop_missing dirs hasOutcome p hseg hmiss paths 0 hp
    exact ⟨e, by rw [scan_test_cases, he]⟩
  · intro L hL
    rw [scan_test_cases] at hL
    cases hsl : scanLoop dirs hasOutcome 0 paths with
    | error e => rw [hsl] at hL; simp at hL
    | ok tcs =>
      rw [hsl] at hL
      simp only [] at hL
      by_cases hnil : tcs = []
      · rw [if_pos hnil] at hL
        simp at hL
      · rw [if_neg hnil] at hL
        simp at hL
        refine ⟨?_, ?_⟩
        · rw [← hL]
          exact sortTC_pairwise tcs
        · intro tc htc
          have htcs : tc ∈ tcs := (mem_sortTC tc tcs).mp (hL ▸ htc)
          have h2 := scanLoop_ids dirs hasOutcome paths 0 tcs hsl tc htcs
          simpa using h2.2

/-- C10 witness: a corpus whose only file lies outside the tier's categories
yields the fatal empty-set error. -/
theorem claim10_witness :
    scan_test_cases ["core"] ["other/x.elcl"] (fun _ => true) =
      .error (.errorExc "No test files found.") :=
  (claim10_scan ["core"] ["other/x.elcl"] (fun _ => true)).1 (by decide)
